import Mathlib

/-!
Verification of the core of `script/convert_xmind_to_markdown.js`: the
archive-content extraction (`readXmindContent`) and the outline renderer
(`getNodeTitle`, `nodeToMarkdown`, `xmindToMarkdown`).  The dynamic values
produced by `JSON.parse` are embedded as the inductive `JValue`; JavaScript
truthiness, property access and template-literal stringification are modelled
explicitly.  `JSON.parse` itself and the zip library are platform builtins,
so the extractor takes the parser as a parameter and models the archive as a
finite name-to-content map.
-/

namespace Yuque2Xmind

/-- Decoded JSON values as produced by `JSON.parse`.  Numbers are modelled as
integers; no behaviour verified here depends on numeric values. -/
inductive JValue where
  | null : JValue
  | bool : Bool → JValue
  | num : Int → JValue
  | str : String → JValue
  | arr : List JValue → JValue
  | obj : List (String × JValue) → JValue
  deriving Repr

/-- JavaScript truthiness of a decoded JSON value (`!node`, `sheet.title &&`):
`null`, `false`, `0` and `""` are falsy; arrays and objects, even empty ones,
are truthy. -/
def isFalsy : JValue → Bool
  | .null => true
  | .bool b => !b
  | .num n => n == 0
  | .str s => s == ""
  | .arr _ => false
  | .obj _ => false

/-- JavaScript property read (`node.title`, `sheet.rootTopic`) on a decoded
JSON value: objects look the key up (`JSON.parse` yields unique keys, so the
first binding is the binding); property access on a primitive yields
`undefined`, modelled as `none`.  The source only reads properties of values
it has established to be defined, so the `null`-receiver `TypeError` of
JavaScript never arises on the shapes considered here. -/
def jGetField : JValue → String → Option JValue
  | .obj fields, name => (fields.find? (fun p => p.1 == name)).map Prod.snd
  | _, _ => none

mutual

/-- Structural size of a `JValue`, the termination measure of the renderer. -/
def jsize : JValue → Nat
  | .null => 1
  | .bool _ => 1
  | .num _ => 1
  | .str _ => 1
  | .arr xs => 1 + jlistSize xs
  | .obj fs => 1 + jfieldsSize fs

/-- Size of a list of `JValue`s, counting one per element. -/
def jlistSize : List JValue → Nat
  | [] => 0
  | v :: vs => 1 + jsize v + jlistSize vs

/-- Size of an object's field list. -/
def jfieldsSize : List (String × JValue) → Nat
  | [] => 0
  | (_, v) :: fs => jsize v + jfieldsSize fs

end

theorem jsize_pos (v : JValue) : 0 < jsize v := by
  cases v <;> simp [jsize]

theorem jsize_le_of_mem_fields {fs : List (String × JValue)} {p : String × JValue}
    (h : p ∈ fs) : jsize p.2 ≤ jfieldsSize fs := by
  induction fs with
  | nil => cases h
  | cons f fs ih =>
    obtain ⟨a, w⟩ := f
    rcases List.mem_cons.mp h with h | h
    · subst h; simp [jfieldsSize]
    · have := ih h
      simp [jfieldsSize]
      omega

theorem jsize_lt_of_getField {v w : JValue} {name : String}
    (h : jGetField v name = some w) : jsize w < jsize v := by
  cases v with
  | obj fs =>
    simp only [jGetField, Option.map_eq_some'] at h
    obtain ⟨p, hfind, hsnd⟩ := h
    have hmem := List.mem_of_find?_eq_some hfind
    have := jsize_le_of_mem_fields hmem
    rw [hsnd] at this
    simp [jsize]
    omega
  | null => simp [jGetField] at h
  | bool b => simp [jGetField] at h
  | num n => simp [jGetField] at h
  | str s => simp [jGetField] at h
  | arr xs => simp [jGetField] at h

/-- The child list of a node: `node.children?.attached || []`.  An absent
`children`, an absent `attached`, or a falsy `attached` normalise to no
children; a decoded JSON array iterates its elements.  (A truthy non-array
`attached` would make the source's `for…of` throw; such shapes fall outside
the document forms treated by the spec and the claims.) -/
def childrenOf (v : JValue) : List JValue :=
  match jGetField v "children" with
  | some c =>
    match jGetField c "attached" with
    | some (.arr xs) => xs
    | _ => []
  | none => []

theorem jlistSize_childrenOf_lt (v : JValue) : jlistSize (childrenOf v) < jsize v := by
  have hp := jsize_pos v
  unfold childrenOf
  split
  · rename_i c hc
    split
    · rename_i xs ha
      have h2 := jsize_lt_of_getField hc
      have h1 := jsize_lt_of_getField ha
      simp only [jsize] at h1
      omega
    · simpa [jlistSize] using hp
  · simpa [jlistSize] using hp

/-- Size of an optional node (`undefined` has size 0). -/
def osize : Option JValue → Nat
  | none => 0
  | some v => jsize v

/-- `getNodeTitle` from the source: a falsy or undefined node yields `""`;
otherwise the node's `title` property if it is a string, else `""`.  Total:
it never throws. -/
def getNodeTitle : Option JValue → String
  | none => ""
  | some v =>
    if isFalsy v then ""
    else
      match jGetField v "title" with
      | some (.str s) => s
      | _ => ""

/-- `s.repeat(n)` of JavaScript. -/
def strRepeat (s : String) : Nat → String
  | 0 => ""
  | n + 1 => s ++ strRepeat s n

mutual

/-- `nodeToMarkdown` from the source.  A falsy or undefined node renders as
`""`.  Otherwise the node's own line: in `heading` mode
`"#".repeat(Math.min(level, 6)) + " " + title + "\n\n"`, in every other mode
(the source tests only `mode === "heading"`) the list line
`"  ".repeat(Math.max(0, level - 1)) + "- " + title + "\n"` (truncated `Nat`
subtraction coincides with `Math.max(0, level - 1)`); then each child of
`node.children?.attached || []` in order at `level + 1`. -/
def nodeToMarkdown (node : Option JValue) (level : Nat) (mode : String) : String :=
  match node with
  | none => ""
  | some v =>
    if isFalsy v then ""
    else
      let title := getNodeTitle (some v)
      let line :=
        if mode == "heading" then
          strRepeat "#" (min level 6) ++ " " ++ title ++ "\n\n"
        else
          strRepeat "  " (level - 1) ++ "- " ++ title ++ "\n"
      line ++ childrenToMarkdown (childrenOf v) (level + 1) mode
termination_by osize node
decreasing_by
  simp only [osize]
  exact jlistSize_childrenOf_lt v

/-- The `for (const child of children)` accumulation inside `nodeToMarkdown`. -/
def childrenToMarkdown (cs : List JValue) (level : Nat) (mode : String) : String :=
  match cs with
  | [] => ""
  | c :: rest => nodeToMarkdown (some c) level mode ++ childrenToMarkdown rest level mode
termination_by jlistSize cs
decreasing_by
  · simp only [osize, jlistSize]; omega
  · simp only [jlistSize]; omega

end

mutual

/-- Template-literal stringification of a decoded JSON value, as in
the source's backtick interpolation of `sheet.title`: strings pass through,
booleans and `null` print their keywords, integers print in decimal, arrays
join their elements with `","` (a `null` element prints empty), plain
objects print `"[object Object]"`. -/
def jsToString : JValue → String
  | .null => "null"
  | .bool b => if b then "true" else "false"
  | .num n => toString n
  | .str s => s
  | .arr xs => jsJoin xs
  | .obj _ => "[object Object]"

/-- `Array.prototype.toString`: elements joined with `","`, `null` elements
rendered empty. -/
def jsJoin : List JValue → String
  | [] => ""
  | [.null] => ""
  | [v] => jsToString v
  | .null :: vs => "," ++ jsJoin vs
  | v :: vs => jsToString v ++ "," ++ jsJoin vs

end

/-- Stringification of a possibly-absent value (`undefined` prints as the
keyword, as in JavaScript template literals). -/
def jsToStringOpt : Option JValue → String
  | none => "undefined"
  | some v => jsToString v

/-- Truthiness of a possibly-absent property value: `undefined` is falsy. -/
def isTruthyOpt : Option JValue → Bool
  | none => false
  | some v => !isFalsy v

/-- The failure taxonomy of the core.  In the source these are thrown
`Error`s: `missingPayload` is "XMind 文件中未找到 content.json" from
`readXmindContent`, `malformedPayload` carries the `JSON.parse` diagnostic,
and `invalidFormat` is "无效的 XMind 内容格式" from `xmindToMarkdown`. -/
inductive ConvError where
  | missingPayload : ConvError
  | malformedPayload : String → ConvError
  | invalidFormat : ConvError
  deriving Repr, DecidableEq

/-- The body of one iteration of the sheet loop in `xmindToMarkdown`, minus
the separator: if `sheet.title` is truthy and the document has more than one
sheet, emit `"# " + sheet.title + "\n\n"` and render `sheet.rootTopic` at
level 2, else render `sheet.rootTopic` at level 1. -/
def renderSheet (sheet : JValue) (total : Nat) (mode : String) : String :=
  let rootTopic := jGetField sheet "rootTopic"
  if isTruthyOpt (jGetField sheet "title") && decide (1 < total) then
    "# " ++ jsToStringOpt (jGetField sheet "title") ++ "\n\n"
      ++ nodeToMarkdown rootTopic 2 mode
  else
    nodeToMarkdown rootTopic 1 mode

/-- The sheet loop of `xmindToMarkdown`, carrying the running index `i`:
every sheet after the first is preceded by the separator `"\n---\n\n"`. -/
def renderSheetsFrom (sheets : List JValue) (total : Nat) (mode : String) (i : Nat) : String :=
  match sheets with
  | [] => ""
  | s :: rest =>
    (if 0 < i then "\n---\n\n" else "")
      ++ renderSheet s total mode
      ++ renderSheetsFrom rest total mode (i + 1)

/-- `xmindToMarkdown` from the source: rejects any value that is not a
non-empty array (`!Array.isArray(content) || content.length === 0`) with the
invalid-format error, else concatenates the sheets' renderings. -/
def xmindToMarkdown (content : JValue) (mode : String) : Except ConvError String :=
  match content with
  | .arr sheets =>
    if sheets.length == 0 then .error .invalidFormat
    else .ok (renderSheetsFrom sheets sheets.length mode 0)
  | _ => .error .invalidFormat

/-- A zip archive, reduced to what `readXmindContent` uses of JSZip: a finite
map from entry names to decompressed text contents. -/
structure Archive where
  entries : List (String × String)

/-- `zip.file(name)` of JSZip: the entry with exactly the given name, or
`null` when absent. -/
def Archive.file (z : Archive) (name : String) : Option String :=
  (z.entries.find? (fun e => e.1 == name)).map Prod.snd

/-- `readXmindContent` from the source, over an already-opened archive.
`JSON.parse` is a platform builtin, so the parser is a parameter: `parse`
returns the decoded value or the parse diagnostic.  A missing `content.json`
entry throws the missing-payload error; a parse failure propagates as the
malformed-payload error carrying the diagnostic. -/
def readXmindContent (parse : String → Except String JValue) (z : Archive) :
    Except ConvError JValue :=
  match z.file "content.json" with
  | none => .error .missingPayload
  | some contentJson =>
    match parse contentJson with
    | .error msg => .error (.malformedPayload msg)
    | .ok v => .ok v

/-- The conversion pipeline of `convertXmindFile`, up to the Markdown string:
extract, then render. -/
def convertXmind (parse : String → Except String JValue) (z : Archive) (mode : String) :
    Except ConvError String :=
  match readXmindContent parse z with
  | .error e => .error e
  | .ok content => xmindToMarkdown content mode

/-- `nodeToMarkdown` with its defaulted parameters (`level = 1`,
`mode = "heading"`), as called with the arguments omitted. -/
def nodeToMarkdownDefaults (node : Option JValue) : String :=
  nodeToMarkdown node 1 "heading"

/-- `xmindToMarkdown` with its defaulted `mode = "heading"`, as called with
the mode omitted. -/
def xmindToMarkdownDefault (content : JValue) : Except ConvError String :=
  xmindToMarkdown content "heading"

/-- The node's own rendered line, as emitted by `nodeToMarkdown` before the
child loop. -/
def topicLine (v : JValue) (level : Nat) (mode : String) : String :=
  if mode == "heading" then
    strRepeat "#" (min level 6) ++ " " ++ getNodeTitle (some v) ++ "\n\n"
  else
    strRepeat "  " (level - 1) ++ "- " ++ getNodeTitle (some v) ++ "\n"

/-- Concatenation of the images of a list, the shape of the child loop's
accumulated output. -/
def concatMap (f : α → String) : List α → String
  | [] => ""
  | a :: l => f a ++ concatMap f l

/-- A childless topic titled "A". -/
def sampleTopicA : JValue := .obj [("title", .str "A")]

/-- A root topic with two attached children, as in the spec's worked example. -/
def sampleRoot : JValue :=
  .obj [("title", .str "Root"),
        ("children", .obj [("attached", .arr [.obj [("title", .str "A")],
                                              .obj [("title", .str "B")]])])]

/-- A sheet titled "Plan" whose root topic is `sampleRoot`. -/
def sampleSheet : JValue := .obj [("title", .str "Plan"), ("rootTopic", sampleRoot)]

/-- A sheet with a title but no root topic. -/
def titledEmptySheet : JValue := .obj [("title", .str "T")]

/-- An archive with no `content.json` entry. -/
def zNoEntry : Archive := ⟨[("metadata.json", "{}")]⟩

/-- A stand-in JSON parser for concrete instantiations: accepts the text
"[]" as the empty array and reports everything else as a parse failure. -/
def sampleParse : String → Except String JValue :=
  fun s => if s == "[]" then .ok (.arr []) else .error "Unexpected token"

theorem nodeToMarkdown_none (level : Nat) (mode : String) :
    nodeToMarkdown none level mode = "" := by
  unfold nodeToMarkdown
  rfl

theorem nodeToMarkdown_some (v : JValue) (level : Nat) (mode : String) :
    nodeToMarkdown (some v) level mode
      = if isFalsy v then ""
        else topicLine v level mode ++ childrenToMarkdown (childrenOf v) (level + 1) mode := by
  unfold nodeToMarkdown topicLine
  rfl

theorem childrenToMarkdown_nil (level : Nat) (mode : String) :
    childrenToMarkdown [] level mode = "" := by
  unfold childrenToMarkdown
  rfl

theorem childrenToMarkdown_cons (c : JValue) (rest : List JValue) (level : Nat) (mode : String) :
    childrenToMarkdown (c :: rest) level mode
      = nodeToMarkdown (some c) level mode ++ childrenToMarkdown rest level mode := by
  simp only [childrenToMarkdown]

theorem childrenToMarkdown_eq_concatMap (cs : List JValue) (level : Nat) (mode : String) :
    childrenToMarkdown cs level mode
      = concatMap (fun c => nodeToMarkdown (some c) level mode) cs := by
  induction cs with
  | nil => rw [childrenToMarkdown_nil]; rfl
  | cons c rest ih => rw [childrenToMarkdown_cons, ih]; rfl

theorem nodeToMarkdown_truthy (v : JValue) (level : Nat) (mode : String)
    (hv : isFalsy v = false) :
    nodeToMarkdown (some v) level mode
      = topicLine v level mode ++ childrenToMarkdown (childrenOf v) (level + 1) mode := by
  rw [nodeToMarkdown_some, hv]
  simp

theorem nodeToMarkdown_leaf (v : JValue) (level : Nat) (mode : String)
    (hv : isFalsy v = false) (hch : childrenOf v = []) :
    nodeToMarkdown (some v) level mode = topicLine v level mode := by
  rw [nodeToMarkdown_truthy v level mode hv, hch, childrenToMarkdown_nil]
  simp

theorem topicLine_heading (v : JValue) (level : Nat) :
    topicLine v level "heading"
      = strRepeat "#" (min level 6) ++ " " ++ getNodeTitle (some v) ++ "\n\n" := by
  simp [topicLine]

theorem topicLine_not_heading (v : JValue) (level : Nat) (mode : String)
    (hm : mode ≠ "heading") :
    topicLine v level mode
      = strRepeat "  " (level - 1) ++ "- " ++ getNodeTitle (some v) ++ "\n" := by
  rw [topicLine, if_neg]
  simp [hm]

theorem renderSheet_cond_true (sheet : JValue) (total : Nat) (mode : String)
    (ht : isTruthyOpt (jGetField sheet "title") = true) (htot : 1 < total) :
    renderSheet sheet total mode
      = "# " ++ jsToStringOpt (jGetField sheet "title") ++ "\n\n"
          ++ nodeToMarkdown (jGetField sheet "rootTopic") 2 mode := by
  rw [renderSheet, if_pos]
  simp [ht, htot]

theorem renderSheet_cond_false (sheet : JValue) (total : Nat) (mode : String)
    (h : isTruthyOpt (jGetField sheet "title") = false ∨ total ≤ 1) :
    renderSheet sheet total mode
      = nodeToMarkdown (jGetField sheet "rootTopic") 1 mode := by
  rw [renderSheet, if_neg]
  rcases h with h | h <;> simp [h]

theorem renderSheetsFrom_pos (sheets : List JValue) (total : Nat) (mode : String) (i : Nat) :
    renderSheetsFrom sheets total mode (i + 1)
      = concatMap (fun s => "\n---\n\n" ++ renderSheet s total mode) sheets := by
  induction sheets generalizing i with
  | nil => rfl
  | cons s rest ih =>
    rw [renderSheetsFrom, if_pos (Nat.succ_pos i), ih]
    rfl

theorem mode_indep_aux (n : Nat) :
    (∀ node : Option JValue, osize node ≤ n → ∀ (level : Nat) (mode : String),
        mode ≠ "heading" → nodeToMarkdown node level mode = nodeToMarkdown node level "list")
      ∧ (∀ cs : List JValue, jlistSize cs ≤ n → ∀ (level : Nat) (mode : String),
          mode ≠ "heading" → childrenToMarkdown cs level mode = childrenToMarkdown cs level "list") := by
  induction n using Nat.strong_induction_on with
  | _ n ih =>
    constructor
    · intro node hn level mode hm
      cases node with
      | none => rw [nodeToMarkdown_none, nodeToMarkdown_none]
      | some v =>
        simp only [osize] at hn
        rw [nodeToMarkdown_some, nodeToMarkdown_some]
        cases hf : isFalsy v with
        | true => simp [hf]
        | false =>
          simp only [hf, Bool.false_eq_true, if_false]
          have hline : topicLine v level mode = topicLine v level "list" := by
            rw [topicLine_not_heading v level mode hm,
                topicLine_not_heading v level "list" (by decide)]
          have hlt : jlistSize (childrenOf v) < n :=
            Nat.lt_of_lt_of_le (jlistSize_childrenOf_lt v) hn
          rw [hline, (ih _ hlt).2 (childrenOf v) (le_refl _) (level + 1) mode hm]
    · intro cs hc level mode hm
      cases cs with
      | nil => rw [childrenToMarkdown_nil, childrenToMarkdown_nil]
      | cons c rest =>
        simp only [jlistSize] at hc
        have hc1 : jsize c < n := by omega
        have hc2 : jlistSize rest < n := by omega
        rw [childrenToMarkdown_cons, childrenToMarkdown_cons,
            (ih _ hc1).1 (some c) (le_refl _) level mode hm,
            (ih _ hc2).2 rest (le_refl _) level mode hm]

theorem nodeToMarkdown_mode_indep (node : Option JValue) (level : Nat) (mode : String)
    (hm : mode ≠ "heading") :
    nodeToMarkdown node level mode = nodeToMarkdown node level "list" :=
  (mode_indep_aux (osize node)).1 node (le_refl _) level mode hm

theorem renderSheet_mode_indep (sheet : JValue) (total : Nat) (mode : String)
    (hm : mode ≠ "heading") :
    renderSheet sheet total mode = renderSheet sheet total "list" := by
  rcases Bool.eq_false_or_eq_true (isTruthyOpt (jGetField sheet "title")) with ht | ht
  · by_cases htot : 1 < total
    · rw [renderSheet_cond_true _ _ _ ht htot, renderSheet_cond_true _ _ _ ht htot,
          nodeToMarkdown_mode_indep _ _ _ hm]
    · rw [renderSheet_cond_false _ _ _ (Or.inr (by omega)),
          renderSheet_cond_false _ _ _ (Or.inr (by omega)),
          nodeToMarkdown_mode_indep _ _ _ hm]
  · rw [renderSheet_cond_false _ _ _ (Or.inl ht), renderSheet_cond_false _ _ _ (Or.inl ht),
        nodeToMarkdown_mode_indep _ _ _ hm]

theorem renderSheetsFrom_mode_indep (sheets : List JValue) (total : Nat) (mode : String)
    (i : Nat) (hm : mode ≠ "heading") :
    renderSheetsFrom sheets total mode i = renderSheetsFrom sheets total "list" i := by
  induction sheets generalizing i with
  | nil => rfl
  | cons s rest ih =>
    rw [renderSheetsFrom, renderSheetsFrom, renderSheet_mode_indep s total mode hm, ih]

theorem xmindToMarkdown_mode_indep (content : JValue) (mode : String)
    (hm : mode ≠ "heading") :
    xmindToMarkdown content mode = xmindToMarkdown content "list" := by
  cases content with
  | arr sheets =>
    cases sheets with
    | nil => rfl
    | cons s rest =>
      rw [xmindToMarkdown, xmindToMarkdown, if_neg (by simp), if_neg (by simp),
          renderSheetsFrom_mode_indep _ _ _ _ hm]
  | null => rfl
  | bool b => rfl
  | num k => rfl
  | str s => rfl
  | obj fs => rfl

/-- C1: rendering a Topic node at level `L` in either mode emits the node's
own line first, then the renderings of its children in order, each rendered
recursively at `L + 1` with the same mode, concatenated immediately after the
parent (depth-first pre-order); a Topic with no children produces exactly its
own rendered line and recurses no further. -/
theorem claim1_preorder (v : JValue) (L : Nat) (mode : String)
    (hv : isFalsy v = false) :
    nodeToMarkdown (some v) L mode
        = topicLine v L mode
            ++ concatMap (fun c => nodeToMarkdown (some c) (L + 1) mode) (childrenOf v)
      ∧ (childrenOf v = [] → nodeToMarkdown (some v) L mode = topicLine v L mode) := by
  refine ⟨?_, fun hch => nodeToMarkdown_leaf v L mode hv hch⟩
  rw [nodeToMarkdown_truthy v L mode hv, childrenToMarkdown_eq_concatMap]

theorem claim1_preorder_witness :
    isFalsy sampleRoot = false
      ∧ (nodeToMarkdown (some sampleRoot) 1 "list"
            = topicLine sampleRoot 1 "list"
                ++ concatMap (fun c => nodeToMarkdown (some c) 2 "list") (childrenOf sampleRoot)
          ∧ (childrenOf sampleRoot = []
              → nodeToMarkdown (some sampleRoot) 1 "list" = topicLine sampleRoot 1 "list")) :=
  ⟨rfl, claim1_preorder sampleRoot 1 "list" rfl⟩

/-- C2: heading-mode rendering of a single (childless) Topic with title `t`
at level `L ≥ 1` produces exactly the line made of `min L 6` hash marks, a
space, `t` and a blank line; for `L > 6` the heading clamps to exactly six
hash marks rather than failing. -/
theorem claim2_heading_line (v : JValue) (t : String) (L : Nat)
    (hv : isFalsy v = false) (ht : getNodeTitle (some v) = t)
    (hch : childrenOf v = []) (_hL : 1 ≤ L) :
    nodeToMarkdown (some v) L "heading" = strRepeat "#" (min L 6) ++ " " ++ t ++ "\n\n"
      ∧ (6 < L →
          nodeToMarkdown (some v) L "heading" = strRepeat "#" 6 ++ " " ++ t ++ "\n\n") := by
  have h : nodeToMarkdown (some v) L "heading" = strRepeat "#" (min L 6) ++ " " ++ t ++ "\n\n" := by
    rw [nodeToMarkdown_leaf v L "heading" hv hch, topicLine_heading, ht]
  refine ⟨h, fun h6 => ?_⟩
  rw [h, Nat.min_eq_right (Nat.le_of_lt h6)]

theorem claim2_heading_line_witness :
    isFalsy sampleTopicA = false
      ∧ getNodeTitle (some sampleTopicA) = "A"
      ∧ childrenOf sampleTopicA = []
      ∧ 1 ≤ 9
      ∧ (nodeToMarkdown (some sampleTopicA) 9 "heading"
            = strRepeat "#" (min 9 6) ++ " " ++ "A" ++ "\n\n"
          ∧ (6 < 9 →
              nodeToMarkdown (some sampleTopicA) 9 "heading"
                = strRepeat "#" 6 ++ " " ++ "A" ++ "\n\n")) :=
  ⟨rfl, rfl, rfl, by omega,
    claim2_heading_line sampleTopicA "A" 9 rfl rfl rfl (by omega)⟩

/-- C3: list-mode rendering of a single (childless) Topic with title `t` at
level `L ≥ 1` produces exactly two-space indentation repeated `L - 1` times,
then "- ", then `t`, then a single newline with no trailing blank line. -/
theorem claim3_list_line (v : JValue) (t : String) (L : Nat)
    (hv : isFalsy v = false) (ht : getNodeTitle (some v) = t)
    (hch : childrenOf v = []) (_hL : 1 ≤ L) :
    nodeToMarkdown (some v) L "list" = strRepeat "  " (L - 1) ++ "- " ++ t ++ "\n" := by
  rw [nodeToMarkdown_leaf v L "list" hv hch,
      topicLine_not_heading v L "list" (by decide), ht]

theorem claim3_list_line_witness :
    isFalsy sampleTopicA = false
      ∧ getNodeTitle (some sampleTopicA) = "A"
      ∧ childrenOf sampleTopicA = []
      ∧ 1 ≤ 3
      ∧ nodeToMarkdown (some sampleTopicA) 3 "list"
          = strRepeat "  " (3 - 1) ++ "- " ++ "A" ++ "\n" :=
  ⟨rfl, rfl, rfl, by omega, claim3_list_line sampleTopicA "A" 3 rfl rfl rfl (by omega)⟩

/-- C4: a Document renders its first sheet, then each subsequent sheet
preceded by the exact separator "\n---\n\n"; a Document with exactly one
Sheet emits no separator anywhere. -/
theorem claim4_sheet_separator (s0 : JValue) (rest : List JValue) (mode : String) :
    xmindToMarkdown (.arr (s0 :: rest)) mode
        = .ok (renderSheet s0 (s0 :: rest).length mode
            ++ concatMap (fun s => "\n---\n\n" ++ renderSheet s (s0 :: rest).length mode) rest)
      ∧ ∀ s : JValue, xmindToMarkdown (.arr [s]) mode = .ok (renderSheet s 1 mode) := by
  constructor
  · rw [xmindToMarkdown, if_neg (by simp), renderSheetsFrom, if_neg (by omega)]
    rw [show (0 : Nat) + 1 = 1 from rfl, renderSheetsFrom_pos rest _ mode 0]
    simp
  · intro s
    rw [xmindToMarkdown, if_neg (by simp), renderSheetsFrom, if_neg (by omega),
        renderSheetsFrom]
    simp

/-- C5: a sheet's title is emitted as the level-1 heading line
`"# " ++ title ++ "\n\n"` followed by the root Topic rendered from level 2
exactly when the title is a non-empty string and the Document has more than
one Sheet; otherwise (single sheet, or empty or absent title) the root Topic
is rendered from level 1 with no sheet-title line. -/
theorem claim5_sheet_title (sheet : JValue) (mode : String) (total : Nat) :
    (∀ t : String, jGetField sheet "title" = some (.str t) →
        (t ≠ "" → 1 < total →
            renderSheet sheet total mode
              = "# " ++ t ++ "\n\n" ++ nodeToMarkdown (jGetField sheet "rootTopic") 2 mode)
          ∧ (t = "" ∨ total ≤ 1 →
              renderSheet sheet total mode
                = nodeToMarkdown (jGetField sheet "rootTopic") 1 mode))
      ∧ (jGetField sheet "title" = none →
          renderSheet sheet total mode
            = nodeToMarkdown (jGetField sheet "rootTopic") 1 mode) := by
  constructor
  · intro t ht
    constructor
    · intro hne hlt
      have htruthy : isTruthyOpt (jGetField sheet "title") = true := by
        rw [ht]; simp [isTruthyOpt, isFalsy, hne]
      rw [renderSheet_cond_true sheet total mode htruthy hlt, ht]
      rfl
    · rintro (h | h)
      · refine renderSheet_cond_false sheet total mode (Or.inl ?_)
        rw [ht, h]; rfl
      · exact renderSheet_cond_false sheet total mode (Or.inr h)
  · intro ht
    refine renderSheet_cond_false sheet total mode (Or.inl ?_)
    rw [ht]; rfl

theorem claim5_sheet_title_witness :
    jGetField sampleSheet "title" = some (.str "Plan")
      ∧ renderSheet sampleSheet 2 "heading"
          = "# " ++ "Plan" ++ "\n\n"
              ++ nodeToMarkdown (jGetField sampleSheet "rootTopic") 2 "heading" :=
  ⟨rfl, (((claim5_sheet_title sampleSheet "heading" 2).1 "Plan" rfl).1
    (by decide) (by omega))⟩

/-- C6: the pipeline's failures follow the error taxonomy: an archive with no
entry named exactly content.json fails with the missing-payload error; an
archive whose content.json entry the JSON parser rejects fails with the
malformed-payload error carrying the parse diagnostic; and a parsed value
that is not a non-empty array of sheets fails with the invalid-format error. -/
theorem claim6_error_taxonomy (parse : String → Except String JValue)
    (z : Archive) (mode : String) :
    (z.file "content.json" = none →
        convertXmind parse z mode = .error .missingPayload)
      ∧ (∀ (s msg : String), z.file "content.json" = some s → parse s = .error msg →
          convertXmind parse z mode = .error (.malformedPayload msg))
      ∧ (∀ (s : String) (content : JValue),
          z.file "content.json" = some s → parse s = .ok content →
          (∀ sheets : List JValue, content = .arr sheets → sheets = []) →
          convertXmind parse z mode = .error .invalidFormat) := by
  refine ⟨fun h => ?_, fun s msg hs hp => ?_, fun s content hs hp hshape => ?_⟩
  · rw [convertXmind, readXmindContent, h]
  · simp only [convertXmind, readXmindContent, hs, hp]
  · simp only [convertXmind, readXmindContent, hs, hp]
    cases content with
    | arr sheets =>
      have : sheets = [] := hshape sheets rfl
      subst this
      rfl
    | null => rfl
    | bool b => rfl
    | num k => rfl
    | str t => rfl
    | obj fs => rfl

theorem claim6_error_taxonomy_witness :
    Archive.file zNoEntry "content.json" = none
      ∧ convertXmind sampleParse zNoEntry "heading" = .error .missingPayload :=
  ⟨rfl, (claim6_error_taxonomy sampleParse zNoEntry "heading").1 rfl⟩

/-- C7 as stated is false on the code: an unrecognized mode string is not
rejected with the invalid-format error; the source tests only
`mode === "heading"` and renders every other mode as a list.  Concretely, a
one-sheet document rendered with mode "bogus" succeeds and yields the
list-mode output. -/
theorem claim7_counterexample :
    xmindToMarkdown
        (.arr [.obj [("rootTopic", .obj [("title", .str "Root")])]]) "bogus"
      = .ok "- Root\n" := by
  have hleaf : nodeToMarkdown (some (JValue.obj [("title", JValue.str "Root")])) 1 "bogus"
      = "- Root\n" := by
    rw [nodeToMarkdown_leaf (JValue.obj [("title", JValue.str "Root")]) 1 "bogus" rfl rfl,
        topicLine_not_heading (JValue.obj [("title", JValue.str "Root")]) 1 "bogus" (by decide)]
    rfl
  rw [xmindToMarkdown, if_neg (by simp), renderSheetsFrom, if_neg (by omega),
      renderSheetsFrom,
      renderSheet_cond_false (JValue.obj [("rootTopic", JValue.obj [("title", JValue.str "Root")])])
        _ _ (Or.inl rfl),
      show jGetField (JValue.obj [("rootTopic", JValue.obj [("title", JValue.str "Root")])])
          "rootTopic" = some (JValue.obj [("title", JValue.str "Root")]) from rfl,
      hleaf]
  rfl

/-- C7 amended: an unrecognized mode value (anything other than exactly
"heading") is never rejected: the renderer silently treats it as list mode,
producing exactly the list-mode output; a call that omits the mode entirely
renders in heading mode (the source's defaulted parameters). -/
theorem claim7_amended_mode_default :
    (∀ (node : Option JValue) (level : Nat) (mode : String), mode ≠ "heading" →
        nodeToMarkdown node level mode = nodeToMarkdown node level "list")
      ∧ (∀ (content : JValue) (mode : String), mode ≠ "heading" →
          xmindToMarkdown content mode = xmindToMarkdown content "list")
      ∧ (∀ node : Option JValue, nodeToMarkdownDefaults node = nodeToMarkdown node 1 "heading")
      ∧ (∀ content : JValue, xmindToMarkdownDefault content = xmindToMarkdown content "heading") :=
  ⟨nodeToMarkdown_mode_indep, xmindToMarkdown_mode_indep,
    fun _ => rfl, fun _ => rfl⟩

theorem claim7_amended_mode_default_witness :
    ("bogus" : String) ≠ "heading"
      ∧ xmindToMarkdown (.arr [.obj [("rootTopic", .obj [("title", .str "Root")])]]) "bogus"
          = xmindToMarkdown (.arr [.obj [("rootTopic", .obj [("title", .str "Root")])]]) "list" :=
  ⟨by decide,
    claim7_amended_mode_default.2.1
      (.arr [.obj [("rootTopic", .obj [("title", .str "Root")])]]) "bogus" (by decide)⟩

/-- C8: the title text used in rendering is the node's title field when that
field is a string, and the empty string in every other case (node undefined,
field absent, or non-string); `getNodeTitle` is a total function, so
computing the title never raises an error. -/
theorem claim8_title_normalization :
    getNodeTitle none = ""
      ∧ (∀ (v : JValue) (s : String),
          jGetField v "title" = some (.str s) → getNodeTitle (some v) = s)
      ∧ (∀ v : JValue,
          (∀ s : String, jGetField v "title" ≠ some (.str s)) → getNodeTitle (some v) = "") := by
  refine ⟨rfl, ?_, ?_⟩
  · intro v s h
    cases v with
    | obj fs => simp [getNodeTitle, isFalsy, h]
    | null => simp [jGetField] at h
    | bool b => simp [jGetField] at h
    | num k => simp [jGetField] at h
    | str t => simp [jGetField] at h
    | arr xs => simp [jGetField] at h
  · intro v h
    cases hf : isFalsy v with
    | true => simp [getNodeTitle, hf]
    | false =>
      cases ht : jGetField v "title" with
      | none => simp [getNodeTitle, hf, ht]
      | some w =>
        cases w with
        | str s => exact absurd ht (h s)
        | null => simp [getNodeTitle, hf, ht]
        | bool b => simp [getNodeTitle, hf, ht]
        | num k => simp [getNodeTitle, hf, ht]
        | arr xs => simp [getNodeTitle, hf, ht]
        | obj fs => simp [getNodeTitle, hf, ht]

theorem claim8_title_normalization_witness :
    jGetField sampleTopicA "title" = some (.str "A")
      ∧ getNodeTitle (some sampleTopicA) = "A" :=
  ⟨rfl, claim8_title_normalization.2.1 sampleTopicA "A" rfl⟩

/-- C9: a Sheet whose root Topic is absent renders as an empty section: it
contributes only its title line when the title is truthy and the document is
multi-sheet, and the empty string otherwise; a single-sheet document around
such a sheet still renders successfully (to the empty string), so the
absence of a root Topic is never an error. -/
theorem claim9_absent_root (sheet : JValue) (mode : String) (total : Nat)
    (hroot : jGetField sheet "rootTopic" = none) :
    (isTruthyOpt (jGetField sheet "title") = true → 1 < total →
        renderSheet sheet total mode
          = "# " ++ jsToStringOpt (jGetField sheet "title") ++ "\n\n")
      ∧ (isTruthyOpt (jGetField sheet "title") = false ∨ total ≤ 1 →
          renderSheet sheet total mode = "")
      ∧ xmindToMarkdown (.arr [sheet]) mode = .ok "" := by
  refine ⟨fun ht htot => ?_, fun h => ?_, ?_⟩
  · rw [renderSheet_cond_true sheet total mode ht htot, hroot, nodeToMarkdown_none]
    simp
  · rw [renderSheet_cond_false sheet total mode h, hroot, nodeToMarkdown_none]
  · rw [xmindToMarkdown, if_neg (by simp), renderSheetsFrom, if_neg (by omega),
        renderSheetsFrom,
        renderSheet_cond_false sheet _ mode (Or.inr (by simp)), hroot,
        nodeToMarkdown_none]
    rfl

theorem claim9_absent_root_witness :
    jGetField titledEmptySheet "rootTopic" = none
      ∧ isTruthyOpt (jGetField titledEmptySheet "title") = true
      ∧ renderSheet titledEmptySheet 2 "list"
          = "# " ++ jsToStringOpt (jGetField titledEmptySheet "title") ++ "\n\n" :=
  ⟨rfl, rfl, (claim9_absent_root titledEmptySheet "list" 2 rfl).1 rfl (by omega)⟩

/-- C10: the per-topic renderer terminates on every finite topic tree: the
child list extracted from a node is strictly smaller than the node under the
structural size measure, and `nodeToMarkdown` is a total function returning
a string for every node, level and mode. -/
theorem claim10_renderer_total :
    (∀ v : JValue, jlistSize (childrenOf v) < jsize v)
      ∧ (∀ (node : Option JValue) (level : Nat) (mode : String),
          ∃ s : String, nodeToMarkdown node level mode = s) :=
  ⟨jlistSize_childrenOf_lt, fun node level mode => ⟨nodeToMarkdown node level mode, rfl⟩⟩

end Yuque2Xmind
